import Mathlib

/-!
Verification development for the SudoDog agent-supervision tool.

The definitions below are a shallow embedding of the Python sources:
`sudodog/blocker.py` (AgentBlocker, FileRollback), `sudodog/monitor.py`
(AgentMonitor.run) and `sudodog/docker_sandbox.py` (DockerSandbox.get_stats).
Strings are modelled as `List Char`; the file system seen by the rollback
subsystem is modelled as an association list from paths to file contents.
-/

namespace SudoDog

/-- Strings of the Python program are modelled as lists of characters. -/
abbrev Str := List Char

/-! ### A small regular-expression engine

Python's `re` module (as used by `AgentBlocker`, always via `re.search`)
is modelled by Brzozowski derivatives over an abstract-syntax tree large
enough for the patterns occurring in `blocker.py`: character classes,
concatenation, alternation, Kleene star.  The end-of-string anchor `$`
appearing in one pattern is modelled by requiring the match to extend to
the end of the input (Python's `$` also matches just before one trailing
newline, which is encoded in the translated pattern itself). -/

inductive Regex where
  | emp : Regex
  | eps : Regex
  | cls (p : Char → Bool) : Regex
  | cat (a b : Regex) : Regex
  | alt (a b : Regex) : Regex
  | star (a : Regex) : Regex

/-- Whether a regex accepts the empty word. -/
def Regex.nullable : Regex → Bool
  | .emp => false
  | .eps => true
  | .cls _ => false
  | .cat a b => a.nullable && b.nullable
  | .alt a b => a.nullable || b.nullable
  | .star _ => true

/-- Brzozowski derivative of a regex by one character. -/
def Regex.deriv : Regex → Char → Regex
  | .emp, _ => .emp
  | .eps, _ => .emp
  | .cls p, c => if p c then .eps else .emp
  | .cat a b, c =>
      if a.nullable then .alt (.cat (a.deriv c) b) (b.deriv c)
      else .cat (a.deriv c) b
  | .alt a b, c => .alt (a.deriv c) (b.deriv c)
  | .star a, c => .cat (a.deriv c) (.star a)

/-- Whether the regex matches the whole word. -/
def Regex.fullMatch : Regex → Str → Bool
  | r, [] => r.nullable
  | r, c :: s => (r.deriv c).fullMatch s

/-- Whether the regex matches some initial segment of the word. -/
def Regex.startMatch : Regex → Str → Bool
  | r, [] => r.nullable
  | r, c :: s => r.nullable || (r.deriv c).startMatch s

/-- Model of `re.search` (match beginning at any position); when `anch`
is set the match must extend to the end of the word, which models a
pattern whose translation carries the end anchor. -/
def Regex.searchFrom (r : Regex) (anch : Bool) : Str → Bool
  | [] => if anch then r.fullMatch [] else r.startMatch []
  | c :: s =>
      (if anch then r.fullMatch (c :: s) else r.startMatch (c :: s)) ||
        r.searchFrom anch s

/-! ### Character classes and pattern constructors -/

/-- ASCII lower-casing, modelling `re.IGNORECASE` comparison of literals. -/
def lc (c : Char) : Char :=
  if 'A' ≤ c ∧ c ≤ 'Z' then Char.ofNat (c.toNat + 32) else c

/-- Case-insensitive literal character (argument given in lower case). -/
def litCI (a : Char) : Regex := .cls (fun c => lc c = a)

/-- Case-sensitive literal character. -/
def litC (a : Char) : Regex := .cls (fun c => c = a)

/-- Case-insensitive literal word, one `litCI` per character. -/
def strCI (s : Str) : Regex := s.foldr (fun c r => .cat (litCI c) r) .eps

/-- Case-sensitive literal word. -/
def strC (s : Str) : Regex := s.foldr (fun c r => .cat (litC c) r) .eps

/-- Python regex class `\s` (ASCII whitespace). -/
def wsChar (c : Char) : Bool :=
  c = ' ' || c = '\t' || c = '\n' || c = '\r' || c = '\x0b' || c = '\x0c'

/-- Python regex class `\w` (word character, ASCII model). -/
def wordChar (c : Char) : Bool := c.isAlphanum || c = '_'

/-- Python regex `.` (any character except newline). -/
def anyChar : Regex := .cls (fun c => c ≠ '\n')

/-- One-or-more repetition `r+`. -/
def rplus (r : Regex) : Regex := .cat r (.star r)

/-- Zero-or-one repetition `r?`. -/
def ropt (r : Regex) : Regex := .alt r .eps

/-- Regex `\s+`. -/
def wsPlus : Regex := rplus (.cls wsChar)

/-- Regex `\s*`. -/
def wsStar : Regex := .star (.cls wsChar)

/-! ### The dangerous-command patterns of `AgentBlocker`

Each entry keeps the source text of the Python pattern (what
`re.Pattern.pattern` returns, collected into `matched_patterns`), the
translated syntax tree, and whether the pattern is anchored at the end
of the string. -/

structure CmdPattern where
  src : Str
  re : Regex
  anchEnd : Bool

/-- Compiled form of `r'DROP\s+TABLE'`. -/
def patDropTable : CmdPattern :=
  ⟨"DROP\\s+TABLE".toList,
   .cat (strCI "drop".toList) (.cat wsPlus (strCI "table".toList)), false⟩

/-- Compiled form of `r'DROP\s+DATABASE'`. -/
def patDropDatabase : CmdPattern :=
  ⟨"DROP\\s+DATABASE".toList,
   .cat (strCI "drop".toList) (.cat wsPlus (strCI "database".toList)), false⟩

/-- Compiled form of `r'TRUNCATE\s+TABLE'`. -/
def patTruncateTable : CmdPattern :=
  ⟨"TRUNCATE\\s+TABLE".toList,
   .cat (strCI "truncate".toList) (.cat wsPlus (strCI "table".toList)), false⟩

/-- Compiled form of `r'DELETE\s+FROM\s+\w+\s*;?\s*$'`; the end anchor is
modelled by `anchEnd := true` together with a trailing optional newline
(Python's `$` also matches just before one final newline). -/
def patDeleteFrom : CmdPattern :=
  ⟨"DELETE\\s+FROM\\s+\\w+\\s*;?\\s*$".toList,
   .cat (strCI "delete".toList)
     (.cat wsPlus
       (.cat (strCI "from".toList)
         (.cat wsPlus
           (.cat (rplus (.cls wordChar))
             (.cat wsStar
               (.cat (ropt (litC ';'))
                 (.cat wsStar (ropt (litC '\n'))))))))), true⟩

/-- Compiled form of `r'rm\s+-rf\s+/'`. -/
def patRmRfRoot : CmdPattern :=
  ⟨"rm\\s+-rf\\s+/".toList,
   .cat (strCI "rm".toList)
     (.cat wsPlus (.cat (strCI "-rf".toList) (.cat wsPlus (litC '/')))), false⟩

/-- Compiled form of `r'rm\s+-rf\s+\*'`. -/
def patRmRfStar : CmdPattern :=
  ⟨"rm\\s+-rf\\s+\\*".toList,
   .cat (strCI "rm".toList)
     (.cat wsPlus (.cat (strCI "-rf".toList) (.cat wsPlus (litC '*')))), false⟩

/-- Compiled form of `r'sudo\s+rm'`. -/
def patSudoRm : CmdPattern :=
  ⟨"sudo\\s+rm".toList,
   .cat (strCI "sudo".toList) (.cat wsPlus (strCI "rm".toList)), false⟩

/-- Compiled form of `r'chmod\s+777'`. -/
def patChmod777 : CmdPattern :=
  ⟨"chmod\\s+777".toList,
   .cat (strCI "chmod".toList) (.cat wsPlus (strC "777".toList)), false⟩

/-- Compiled form of `r'mkfs\.'`. -/
def patMkfs : CmdPattern :=
  ⟨"mkfs\\.".toList, .cat (strCI "mkfs".toList) (litC '.'), false⟩

/-- Compiled form of `r'dd\s+if='`. -/
def patDdIf : CmdPattern :=
  ⟨"dd\\s+if=".toList,
   .cat (strCI "dd".toList) (.cat wsPlus (strCI "if=".toList)), false⟩

/-- Compiled form of the fork-bomb pattern `r':(){ :|:& };:'`.  In Python
regex syntax `()` is an empty group and `|` a top-level alternation, so
the compiled pattern matches either the literal `:\x7b :` or the literal
`:& \x7d;:` (and the second branch occurs inside the classic fork-bomb
text, so the pattern does flag it). -/
def patForkBomb : CmdPattern :=
  ⟨":()\x7b :|:& \x7d;:".toList,
   .alt (strC ":\x7b :".toList) (strC ":& \x7d;:".toList), false⟩

/-- Compiled form of `r'curl.*pastebin'`. -/
def patCurlPastebin : CmdPattern :=
  ⟨"curl.*pastebin".toList,
   .cat (strCI "curl".toList)
     (.cat (.star anyChar) (strCI "pastebin".toList)), false⟩

/-- Compiled form of `r'wget.*pastebin'`. -/
def patWgetPastebin : CmdPattern :=
  ⟨"wget.*pastebin".toList,
   .cat (strCI "wget".toList)
     (.cat (.star anyChar) (strCI "pastebin".toList)), false⟩

/-- Model of `AgentBlocker.DANGEROUS_PATTERNS` after compilation with
`re.IGNORECASE`, in declaration order. -/
def DANGEROUS_PATTERNS : List CmdPattern :=
  [patDropTable, patDropDatabase, patTruncateTable, patDeleteFrom,
   patRmRfRoot, patRmRfStar, patSudoRm, patChmod777,
   patMkfs, patDdIf, patForkBomb, patCurlPastebin, patWgetPastebin]

/-- Model of `pattern.search(command)` for a compiled dangerous pattern. -/
def patternHits (p : CmdPattern) (command : Str) : Bool :=
  p.re.searchFrom p.anchEnd command

/-! ### `AgentBlocker.check_command` -/

/-- Model of `', '.join(l)`. -/
def joinComma : List Str → Str
  | [] => []
  | [s] => s
  | s :: t :: r => s ++ ", ".toList ++ joinComma (t :: r)

/-- Model of `AgentBlocker.check_command`: collects the source text of
every matching dangerous pattern in declaration order and denies iff at
least one matched; the reason quotes the first two matches. -/
def check_command (command : Str) : Bool × Option Str × List Str :=
  let matched := (DANGEROUS_PATTERNS.filter (fun p => patternHits p command)).map CmdPattern.src
  if matched.isEmpty then (true, none, [])
  else
    (false,
     some ("Command contains dangerous patterns: ".toList ++ joinComma (matched.take 2)),
     matched)

section C1

/-- Helper: the matched-pattern component of `check_command` is always the
filter of the declared patterns by matching, projected to source text. -/
theorem check_command_matched_eq (c : Str) :
    (check_command c).2.2 =
      (DANGEROUS_PATTERNS.filter (fun p => patternHits p c)).map CmdPattern.src := by
  unfold check_command
  by_cases h :
      ((DANGEROUS_PATTERNS.filter (fun p => patternHits p c)).map CmdPattern.src).isEmpty
  · simp only [h, if_pos]
    exact (List.isEmpty_iff.mp h).symm
  · simp only [h]
    rfl

/-- Helper: the allowed flag of `check_command` is the emptiness of the
matched-pattern list. -/
theorem check_command_fst_eq (c : Str) :
    (check_command c).1 =
      ((DANGEROUS_PATTERNS.filter (fun p => patternHits p c)).map CmdPattern.src).isEmpty := by
  unfold check_command
  by_cases h :
      ((DANGEROUS_PATTERNS.filter (fun p => patternHits p c)).map CmdPattern.src).isEmpty
  · simp [h]
  · simp [h]

/-- Helper: when the matched list is nonempty, the reason is the fixed prefix
followed by the first two matched pattern texts. -/
theorem check_command_reason_eq (c : Str)
    (h : (check_command c).1 = false) :
    (check_command c).2.1 =
      some ("Command contains dangerous patterns: ".toList ++
        joinComma ((check_command c).2.2.take 2)) := by
  rw [check_command_matched_eq]
  revert h
  unfold check_command
  by_cases h :
      ((DANGEROUS_PATTERNS.filter (fun p => patternHits p c)).map CmdPattern.src).isEmpty
  · simp [h]
  · simp [h]

/-- C1: `check_command` denies iff at least one compiled dangerous pattern
matches the raw command; on denial `matched_patterns` collects every
matching pattern (not just the first), in declaration order, and is a
nonempty sublist of the declared pattern texts; when nothing matches the
result is allowed with no reason and an empty matched list. -/
theorem check_command_correct (c : Str) :
    ((check_command c).1 = false ↔
      ∃ p ∈ DANGEROUS_PATTERNS, patternHits p c = true)
    ∧ (∀ p ∈ DANGEROUS_PATTERNS, patternHits p c = true →
        p.src ∈ (check_command c).2.2)
    ∧ (∀ s ∈ (check_command c).2.2,
        ∃ p ∈ DANGEROUS_PATTERNS, p.src = s ∧ patternHits p c = true)
    ∧ List.Sublist (check_command c).2.2 (DANGEROUS_PATTERNS.map CmdPattern.src)
    ∧ ((check_command c).1 = true →
        (check_command c).2.1 = none ∧ (check_command c).2.2 = [])
    ∧ ((check_command c).1 = false → (check_command c).2.2 ≠ []) := by
  have hm := check_command_matched_eq c
  have hf := check_command_fst_eq c
  refine ⟨?_, ?_, ?_, ?_, ?_, ?_⟩
  · rw [hf]
    constructor
    · intro h
      have : ¬ ((DANGEROUS_PATTERNS.filter (fun p => patternHits p c)).map CmdPattern.src).isEmpty := by
        simp [h]
      rw [List.isEmpty_iff] at this
      have hne : DANGEROUS_PATTERNS.filter (fun p => patternHits p c) ≠ [] := by
        intro hnil; exact this (by simp [hnil])
      obtain ⟨p, hp⟩ := List.exists_mem_of_ne_nil _ hne
      exact ⟨p, (List.mem_filter.mp hp).1, (List.mem_filter.mp hp).2⟩
    · intro ⟨p, hp, hhit⟩
      have : p.src ∈ (DANGEROUS_PATTERNS.filter (fun p => patternHits p c)).map CmdPattern.src :=
        List.mem_map_of_mem _ (List.mem_filter.mpr ⟨hp, hhit⟩)
      rcases hq : ((DANGEROUS_PATTERNS.filter (fun p => patternHits p c)).map CmdPattern.src).isEmpty with _ | _
      · rfl
      · rw [List.isEmpty_iff] at hq
        rw [hq] at this
        exact absurd this (List.not_mem_nil _)
  · intro p hp hhit
    rw [hm]
    exact List.mem_map_of_mem _ (List.mem_filter.mpr ⟨hp, hhit⟩)
  · intro s hs
    rw [hm] at hs
    obtain ⟨p, hp, rfl⟩ := List.mem_map.mp hs
    exact ⟨p, (List.mem_filter.mp hp).1, rfl, (List.mem_filter.mp hp).2⟩
  · rw [hm]
    exact List.Sublist.map _ (List.filter_sublist _)
  · intro h
    rw [hf] at h
    rw [List.isEmpty_iff] at h
    constructor
    · unfold check_command
      simp [h]
    · rw [hm, h]
  · intro h
    rw [hm]
    rw [hf] at h
    intro hnil
    rw [hnil] at h
    simp at h

/-- Concrete instance of C1 at the command `DROP TABLE users;`. -/
theorem check_command_correct_witness :
    (check_command ("DROP TABLE users;".toList)).1 = false :=
  (check_command_correct ("DROP TABLE users;".toList)).1.mpr
    ⟨patDropTable, by unfold DANGEROUS_PATTERNS; exact List.mem_cons_self _ _, by decide⟩

end C1

/-! ### Tilde expansion and the blocked-path lists -/

/-- Model of `os.path.expanduser` for the invoking user, whose home
directory is the parameter `home`: a leading `~` (alone or followed by a
separator) is replaced by `home`; every other path is returned unchanged
(named-user forms `~other` do not occur in the rule lists and are modelled
as unexpanded, as Python does for an unknown user). -/
def expanduser (home p : Str) : Str :=
  if ('~' :: '/' :: []).isPrefixOf p then home ++ p.drop 1
  else if p = ['~'] then home
  else p

/-- Model of `AgentBlocker.BLOCKED_READ_PATHS`, in declaration order. -/
def BLOCKED_READ_PATHS : List Str :=
  ["/etc/shadow".toList,
   "/etc/passwd".toList,
   "/etc/sudoers".toList,
   "~/.ssh/id_rsa".toList,
   "~/.ssh/id_ed25519".toList,
   "~/.aws/credentials".toList,
   "~/.config/gcloud/".toList,
   ".env".toList,
   ".env.local".toList,
   ".env.production".toList,
   "~/.docker/config.json".toList,
   "~/.kube/config".toList]

/-- Model of `AgentBlocker.BLOCKED_WRITE_PATHS`, in declaration order. -/
def BLOCKED_WRITE_PATHS : List Str :=
  ["/etc/".toList, "/usr/bin/".toList, "/usr/sbin/".toList, "/bin/".toList,
   "/sbin/".toList, "/boot/".toList, "/sys/".toList, "/proc/".toList]

/-- Bool test modelling Python `s.endswith(t)`. -/
def strEndsWith (s t : Str) : Bool := t.isSuffixOf s

/-- Bool test modelling Python `s.startswith(t)`. -/
def strStartsWith (s t : Str) : Bool := t.isPrefixOf s

/-- Model of `blocked.replace('*', '.*')` compiled as a regex: a star
becomes `.*`, a dot is the any-character class, every other character in
the rule lists is literal. -/
def globToRegex (e : Str) : Regex :=
  e.foldr
    (fun c r =>
      if c = '*' then .cat (.star anyChar) r
      else if c = '.' then .cat anyChar r
      else .cat (litC c) r) .eps

/-- Denial reason for an exact sensitive-file hit. -/
def sensitiveFileReason (p : Str) : Str :=
  "Access to ".toList ++ p ++ " is blocked (sensitive file)".toList

/-- Denial reason for a sensitive-directory hit. -/
def sensitiveDirReason (p : Str) : Str :=
  "Access to ".toList ++ p ++ " is blocked (sensitive directory)".toList

/-- Denial reason for a sensitive-pattern (glob) hit. -/
def sensitivePatReason (p : Str) : Str :=
  "Access to ".toList ++ p ++ " is blocked (matches sensitive pattern)".toList

/-! ### `AgentBlocker.check_file_read` -/

/-- Loop body of `AgentBlocker.check_file_read`: for each blocked entry,
in order, first the exact comparison of the expanded paths, then the
directory-prefix test for entries ending in a separator, then the glob
test of the raw path for entries containing a star. -/
def check_file_read_go (home path : Str) : List Str → Bool × Option Str
  | [] => (true, none)
  | blocked :: rest =>
      if expanduser home path = expanduser home blocked then
        (false, some (sensitiveFileReason path))
      else if strEndsWith (expanduser home blocked) ['/'] &&
          strStartsWith (expanduser home path) (expanduser home blocked) then
        (false, some (sensitiveDirReason path))
      else if blocked.contains '*' && (globToRegex blocked).searchFrom false path then
        (false, some (sensitivePatReason path))
      else check_file_read_go home path rest

/-- Model of `AgentBlocker.check_file_read`. -/
def check_file_read (home path : Str) : Bool × Option Str :=
  check_file_read_go home path BLOCKED_READ_PATHS

/-- Loop body of `AgentBlocker.check_file_write`: denial when the
expanded path has a blocked system-directory prefix (the write entries
are compared unexpanded, as in the source). -/
def check_file_write_go (home path : Str) : List Str → Bool × Option Str
  | [] => (true, none)
  | blocked :: rest =>
      if strStartsWith (expanduser home path) blocked then
        (false, some ("Write to ".toList ++ path ++ " is blocked (system directory)".toList))
      else check_file_write_go home path rest

/-- Model of `AgentBlocker.check_file_write`. -/
def check_file_write (home path : Str) : Bool × Option Str :=
  check_file_write_go home path BLOCKED_WRITE_PATHS

/-- Model of `AgentBlocker.should_block`: dispatch on the action type;
unknown action types are allowed by default. -/
def should_block (home : Str) (action_type target : Str) : Bool × Option Str :=
  if action_type = "file_read".toList then
    (!(check_file_read home target).1, (check_file_read home target).2)
  else if action_type = "file_write".toList then
    (!(check_file_write home target).1, (check_file_write home target).2)
  else if action_type = "command".toList then
    (!(check_command target).1, (check_command target).2.1)
  else (false, none)

section C8

/-- C8: unknown action types are allowed by default (fail-open). -/
theorem should_block_unknown_allows (home a t : Str)
    (h1 : a ≠ "file_read".toList) (h2 : a ≠ "file_write".toList)
    (h3 : a ≠ "command".toList) :
    should_block home a t = (false, none) := by
  unfold should_block
  rw [if_neg h1, if_neg h2, if_neg h3]

/-- Concrete instance of C8 at action type `network` and target `example.com`. -/
theorem should_block_unknown_allows_witness :
    should_block [] ("network".toList) ("example.com".toList) = (false, none) :=
  should_block_unknown_allows [] _ _ (by decide) (by decide) (by decide)

end C8

section C4

/-- Verdict of a single blocked-read entry `e` against a path `p`,
stated as in the specification: exact match of the tilde-expanded paths
denies as a sensitive file; a directory entry (expanded form ending in a
separator) that is a prefix of the expanded path denies as a sensitive
directory; an entry containing a star whose glob regex matches the raw
path denies as a sensitive pattern; otherwise the entry does not apply. -/
def readRuleVerdict (home e p : Str) : Option Str :=
  if expanduser home p = expanduser home e then
    some (sensitiveFileReason p)
  else if strEndsWith (expanduser home e) ['/'] &&
      strStartsWith (expanduser home p) (expanduser home e) then
    some (sensitiveDirReason p)
  else if e.contains '*' && (globToRegex e).searchFrom false p then
    some (sensitivePatReason p)
  else none

/-- Helper: the source loop of `check_file_read` computes exactly the
first applicable rule verdict over its entry list. -/
theorem check_file_read_go_eq (home p : Str) (l : List Str) :
    check_file_read_go home p l =
      match l.findSome? (fun e => readRuleVerdict home e p) with
      | some r => (false, some r)
      | none => (true, none) := by
  induction l with
  | nil => rfl
  | cons e rest ih =>
      rw [List.findSome?_cons]
      unfold check_file_read_go readRuleVerdict
      by_cases h1 : expanduser home p = expanduser home e
      · rw [if_pos h1, if_pos h1]
      · rw [if_neg h1, if_neg h1]
        by_cases h2 : (strEndsWith (expanduser home e) ['/'] &&
            strStartsWith (expanduser home p) (expanduser home e)) = true
        · rw [if_pos h2, if_pos h2]
        · rw [if_neg h2, if_neg h2]
          by_cases h3 : (e.contains '*' && (globToRegex e).searchFrom false p) = true
          · rw [if_pos h3, if_pos h3]
          · rw [if_neg h3, if_neg h3]
            exact ih

/-- Helper: an entry whose verdict is `none` is skipped by the loop. -/
theorem check_file_read_go_skip (home p e : Str) (rest : List Str)
    (h : readRuleVerdict home e p = none) :
    check_file_read_go home p (e :: rest) = check_file_read_go home p rest := by
  rw [check_file_read_go_eq, check_file_read_go_eq, List.findSome?_cons, h]

/-- Helper: the first entry with an applicable rule decides the result. -/
theorem check_file_read_go_hit (home p e : Str) (rest : List Str) (r : Str)
    (h : readRuleVerdict home e p = some r) :
    check_file_read_go home p (e :: rest) = (false, some r) := by
  rw [check_file_read_go_eq, List.findSome?_cons, h]

/-- C4: `check_file_read` returns the verdict of the first applicable
blocked-read rule, in declaration order — exact expanded match denying as
a sensitive file, directory-prefix match denying as a sensitive
directory, glob match of the raw path denying as a sensitive pattern —
and allows with no reason when no rule applies. -/
theorem check_file_read_first_match (home p : Str) :
    (check_file_read home p =
      match BLOCKED_READ_PATHS.findSome? (fun e => readRuleVerdict home e p) with
      | some r => (false, some r)
      | none => (true, none))
    ∧ ((∀ e ∈ BLOCKED_READ_PATHS, readRuleVerdict home e p = none) →
        check_file_read home p = (true, none))
    ∧ (∀ pre e post, BLOCKED_READ_PATHS = pre ++ e :: post →
        (∀ e' ∈ pre, readRuleVerdict home e' p = none) →
        ∀ r, readRuleVerdict home e p = some r →
          check_file_read home p = (false, some r)) := by
  refine ⟨check_file_read_go_eq home p BLOCKED_READ_PATHS, ?_, ?_⟩
  · intro h
    rw [check_file_read, check_file_read_go_eq]
    rw [List.findSome?_eq_none_iff.mpr h]
  · intro pre e post hsplit hpre r hr
    rw [check_file_read, hsplit]
    clear hsplit
    induction pre with
    | nil => exact check_file_read_go_hit home p e post r hr
    | cons e' pre' ih =>
        rw [List.cons_append,
          check_file_read_go_skip home p e' _ (hpre e' (List.mem_cons_self _ _))]
        exact ih (fun x hx => hpre x (List.mem_cons_of_mem _ hx))

/-- Concrete instance of C4: reading `/etc/shadow` is denied by the first
rule as a sensitive file. -/
theorem check_file_read_first_match_witness :
    check_file_read [] ("/etc/shadow".toList) =
      (false, some (sensitiveFileReason ("/etc/shadow".toList))) :=
  (check_file_read_first_match [] ("/etc/shadow".toList)).2.2
    [] ("/etc/shadow".toList) (BLOCKED_READ_PATHS.drop 1) rfl
    (fun _ hx => absurd hx (List.not_mem_nil _))
    (sensitiveFileReason ("/etc/shadow".toList)) (by decide)

end C4

section C10

/-- Helper: a suffix of the right operand is a suffix of an append. -/
theorem suffix_append_of_suffix (s t l : Str) (h : s <:+ t) : s <:+ l ++ t :=
  h.trans (List.suffix_append l t)

/-- Helper: a suffix of an append that is no longer than the right
operand is a suffix of the right operand. -/
theorem suffix_of_suffix_append (s l t : Str) (h : s <:+ l ++ t)
    (hlen : s.length ≤ t.length) : s <:+ t := by
  obtain ⟨w, hw⟩ := h
  have hlw : l.length ≤ w.length := by
    have := congrArg List.length hw
    simp only [List.length_append] at this
    omega
  have h1 : (l ++ t).drop l.length = t := by simp
  rw [← hw, List.drop_append_of_le_length hlw] at h1
  exact ⟨w.drop l.length, h1⟩

/-- Helper: tilde expansion preserves the trailing component `/.env`. -/
theorem env_suffix_expanduser (home p : Str) (h : "/.env".toList <:+ p) :
    "/.env".toList <:+ expanduser home p := by
  unfold expanduser
  by_cases h1 : (('~' :: '/' :: []).isPrefixOf p : Bool)
  · rw [if_pos h1]
    obtain ⟨t, ht⟩ := List.isPrefixOf_iff_prefix.mp h1
    rw [← ht]
    rw [← ht] at h
    rcases List.suffix_cons_iff.mp h with heq | h'
    · injection heq with hc _
      exact absurd hc (by decide)
    · rcases List.suffix_cons_iff.mp h' with heq2 | h''
      · exact suffix_append_of_suffix _ _ _ (heq2 ▸ List.suffix_refl _)
      · exact suffix_append_of_suffix _ _ _ (List.suffix_cons_iff.mpr (Or.inr h''))
  · rw [if_neg h1]
    by_cases h2 : p = ['~']
    · rw [h2] at h
      have := h.length_le
      simp at this
    · rw [if_neg h2]
      exact h

/-- Helper: two words differ when a third is a suffix of one only. -/
theorem ne_of_suffix_absent (s a b : Str) (ha : s <:+ a) (hb : ¬ s <:+ b) : a ≠ b :=
  fun h => hb (h ▸ ha)

/-- Helper: a word carrying a long suffix differs from a shorter word. -/
theorem ne_short_of_long_suffix (s a b : Str) (ha : s <:+ a)
    (h : b.length < s.length) : a ≠ b := by
  intro he
  have := ha.length_le
  rw [he] at this
  omega

/-- Helper: a word shorter than `te` is never `home ++ te`. -/
theorem ne_append_of_short (a home te : Str) (h : a.length < te.length) :
    a ≠ home ++ te := by
  intro he
  have := congrArg List.length he
  rw [List.length_append] at this
  omega

/-- Helper: `strStartsWith` fails against a longer candidate. -/
theorem startsWith_false_of_short (s t : Str) (h : s.length < t.length) :
    strStartsWith s t = false := by
  rw [Bool.eq_false_iff]
  intro hb
  have := (List.isPrefixOf_iff_prefix.mp hb).length_le
  omega

/-- Helper: strict length bound against an appended word. -/
theorem short_lt_append (a home te : Str) (h : a.length < te.length) :
    a.length < (home ++ te).length := by
  rw [List.length_append]
  omega

/-- Helper: `/.env` is not a suffix of `home ++ te` when it is not a
suffix of the long enough tail `te`. -/
theorem not_env_suffix_append (home te : Str)
    (hlen : ("/.env".toList).length ≤ te.length)
    (hte : ¬ "/.env".toList <:+ te) : ¬ "/.env".toList <:+ home ++ te :=
  fun h => hte (suffix_of_suffix_append _ home te h hlen)

/-- Helper: a conjunction is false when its right operand is. -/
theorem and_false_right (a b : Bool) (h : b = false) : (a && b) = false := by
  rw [h]
  exact Bool.and_false _

/-- Helper: a conjunction is false when its left operand is. -/
theorem and_false_left (a b : Bool) (h : a = false) : (a && b) = false := by
  rw [h]
  exact Bool.false_and _

/-- Helper: an entry yields no verdict when all three rule tests fail. -/
theorem readRuleVerdict_none_of (home e p : Str)
    (h1 : expanduser home p ≠ expanduser home e)
    (h2 : (strEndsWith (expanduser home e) ['/'] &&
        strStartsWith (expanduser home p) (expanduser home e)) = false)
    (h3 : (e.contains '*' && (globToRegex e).searchFrom false p) = false) :
    readRuleVerdict home e p = none := by
  unfold readRuleVerdict
  rw [if_neg h1]
  rw [if_neg (show ¬(_ = true) by rw [h2]; exact Bool.false_ne_true)]
  rw [if_neg (show ¬(_ = true) by rw [h3]; exact Bool.false_ne_true)]

end C10





section C10Main

/-- Helper: tilde expansion rewrites a leading `~/` to the home directory. -/
theorem expanduser_tilde (home te : Str) :
    expanduser home ('~' :: '/' :: te) = home ++ '/' :: te := by
  unfold expanduser
  rw [if_pos (by simp [List.isPrefixOf])]
  rfl

/-- Helper: entry verdicts on the literal path `.env` for the tilde
entries of the blocked-read list are `none` (their expansions live under
the home directory and are longer than `.env`). -/
theorem readRuleVerdict_tilde_env_none (home te : Str)
    (hlen : (".env".toList : Str).length < ('/' :: te).length)
    (hstar : (('~' :: '/' :: te).contains '*') = false) :
    readRuleVerdict home ('~' :: '/' :: te) (".env".toList) = none := by
  have hexp : expanduser home ('~' :: '/' :: te) = home ++ '/' :: te :=
    expanduser_tilde home te
  have hp : expanduser home (".env".toList) = ".env".toList := rfl
  apply readRuleVerdict_none_of
  · rw [hp, hexp]
    exact ne_append_of_short _ home _ hlen
  · rw [hp, hexp]
    exact and_false_right _ _
      (startsWith_false_of_short _ _ (short_lt_append _ home _ hlen))
  · exact and_false_left _ _ hstar

/-- C10: the env-file entries of the blocked-read list match only by
exact string equality after tilde expansion: the literal path `.env` is
denied as a sensitive file, while every path whose final component is
`.env` but that differs from the literal entry (equivalently, every path
carrying the suffix `/.env`) is allowed, provided no directory-prefix
rule of the list applies to it (the current list contains no glob entry,
so no glob rule can ever apply). -/
theorem env_entry_exact_match_only (home : Str) :
    (check_file_read home (".env".toList) =
      (false, some (sensitiveFileReason (".env".toList))))
    ∧ (∀ p : Str, "/.env".toList <:+ p →
        (∀ e ∈ BLOCKED_READ_PATHS,
          (strEndsWith (expanduser home e) ['/'] &&
            strStartsWith (expanduser home p) (expanduser home e)) = false) →
        check_file_read home p = (true, none)) := by
  constructor
  · have sk1 : readRuleVerdict home ("/etc/shadow".toList) (".env".toList) = none := rfl
    have sk2 : readRuleVerdict home ("/etc/passwd".toList) (".env".toList) = none := rfl
    have sk3 : readRuleVerdict home ("/etc/sudoers".toList) (".env".toList) = none := rfl
    have sk4 : readRuleVerdict home ("~/.ssh/id_rsa".toList) (".env".toList) = none :=
      readRuleVerdict_tilde_env_none home (".ssh/id_rsa".toList) (by decide) (by decide)
    have sk5 : readRuleVerdict home ("~/.ssh/id_ed25519".toList) (".env".toList) = none :=
      readRuleVerdict_tilde_env_none home (".ssh/id_ed25519".toList) (by decide) (by decide)
    have sk6 : readRuleVerdict home ("~/.aws/credentials".toList) (".env".toList) = none :=
      readRuleVerdict_tilde_env_none home (".aws/credentials".toList) (by decide) (by decide)
    have sk7 : readRuleVerdict home ("~/.config/gcloud/".toList) (".env".toList) = none :=
      readRuleVerdict_tilde_env_none home (".config/gcloud/".toList) (by decide) (by decide)
    have hit : readRuleVerdict home (".env".toList) (".env".toList) =
        some (sensitiveFileReason (".env".toList)) := by
      unfold readRuleVerdict
      rw [if_pos rfl]
    unfold check_file_read BLOCKED_READ_PATHS
    rw [check_file_read_go_skip _ _ _ _ sk1, check_file_read_go_skip _ _ _ _ sk2,
      check_file_read_go_skip _ _ _ _ sk3, check_file_read_go_skip _ _ _ _ sk4,
      check_file_read_go_skip _ _ _ _ sk5, check_file_read_go_skip _ _ _ _ sk6,
      check_file_read_go_skip _ _ _ _ sk7]
    exact check_file_read_go_hit _ _ _ _ _ hit
  · intro p hsuf hdir
    have henv := env_suffix_expanduser home p hsuf
    rw [check_file_read, check_file_read_go_eq]
    have hall : ∀ e ∈ BLOCKED_READ_PATHS, readRuleVerdict home e p = none := by
      intro e he
      fin_cases he
      · exact readRuleVerdict_none_of _ _ _
          (ne_of_suffix_absent _ _ _ henv
            (show ¬ "/.env".toList <:+ ("/etc/shadow".toList : Str) by decide))
          (hdir _ (by decide)) (and_false_left _ _ (by decide))
      · exact readRuleVerdict_none_of _ _ _
          (ne_of_suffix_absent _ _ _ henv
            (show ¬ "/.env".toList <:+ ("/etc/passwd".toList : Str) by decide))
          (hdir _ (by decide)) (and_false_left _ _ (by decide))
      · exact readRuleVerdict_none_of _ _ _
          (ne_of_suffix_absent _ _ _ henv
            (show ¬ "/.env".toList <:+ ("/etc/sudoers".toList : Str) by decide))
          (hdir _ (by decide)) (and_false_left _ _ (by decide))
      · exact readRuleVerdict_none_of _ _ _
          (ne_of_suffix_absent _ _ _ henv
            (not_env_suffix_append home ("/.ssh/id_rsa".toList) (by decide) (by decide)))
          (hdir _ (by decide)) (and_false_left _ _ (by decide))
      · exact readRuleVerdict_none_of _ _ _
          (ne_of_suffix_absent _ _ _ henv
            (not_env_suffix_append home ("/.ssh/id_ed25519".toList) (by decide) (by decide)))
          (hdir _ (by decide)) (and_false_left _ _ (by decide))
      · exact readRuleVerdict_none_of _ _ _
          (ne_of_suffix_absent _ _ _ henv
            (not_env_suffix_append home ("/.aws/credentials".toList) (by decide) (by decide)))
          (hdir _ (by decide)) (and_false_left _ _ (by decide))
      · exact readRuleVerdict_none_of _ _ _
          (ne_of_suffix_absent _ _ _ henv
            (not_env_suffix_append home ("/.config/gcloud/".toList) (by decide) (by decide)))
          (hdir _ (by decide)) (and_false_left _ _ (by decide))
      · exact readRuleVerdict_none_of _ _ _
          (ne_short_of_long_suffix _ _ _ henv
            (show ((".env".toList : Str)).length < ("/.env".toList).length by decide))
          (hdir _ (by decide)) (and_false_left _ _ (by decide))
      · exact readRuleVerdict_none_of _ _ _
          (ne_of_suffix_absent _ _ _ henv
            (show ¬ "/.env".toList <:+ (".env.local".toList : Str) by decide))
          (hdir _ (by decide)) (and_false_left _ _ (by decide))
      · exact readRuleVerdict_none_of _ _ _
          (ne_of_suffix_absent _ _ _ henv
            (show ¬ "/.env".toList <:+ (".env.production".toList : Str) by decide))
          (hdir _ (by decide)) (and_false_left _ _ (by decide))
      · exact readRuleVerdict_none_of _ _ _
          (ne_of_suffix_absent _ _ _ henv
            (not_env_suffix_append home ("/.docker/config.json".toList) (by decide) (by decide)))
          (hdir _ (by decide)) (and_false_left _ _ (by decide))
      · exact readRuleVerdict_none_of _ _ _
          (ne_of_suffix_absent _ _ _ henv
            (not_env_suffix_append home ("/.kube/config".toList) (by decide) (by decide)))
          (hdir _ (by decide)) (and_false_left _ _ (by decide))
    rw [List.findSome?_eq_none_iff.mpr hall]

/-- Concrete instance of C10: `project/.env` is allowed although its
final component is `.env`. -/
theorem env_entry_exact_match_only_witness :
    check_file_read ("/home/user".toList) ("project/.env".toList) = (true, none) :=
  (env_entry_exact_match_only ("/home/user".toList)).2 ("project/.env".toList)
    (by decide) (by decide)

end C10Main

/-! ### `AgentMonitor.run` (monitor.py)

The supervisor is modelled as a pure function.  Real-world effects are
abstracted: the outcome of the spawned process (exit code, captured
output, and the open files that `psutil` reports during the monitoring
pass) is a parameter `proc`; the audit-log events that `log_action`
appends are returned in order.  The blocked path never consults `proc`,
matching the source, which returns before any process is created. -/

/-- Details payload of one audit-log event, one constructor per shape
occurring in `AgentMonitor.run`. -/
inductive EventDetails where
  | startD (command cwd user : Str) : EventDetails
  | blockedD (command : Str) (reason : Option Str) (patterns : List Str) : EventDetails
  | fileAccessD (path mode : Str) : EventDetails
  | completeD (exit_code : Int) (total_actions blocked_actions : Nat) : EventDetails

/-- One audit-log event as written by `AgentMonitor.log_action`. -/
structure Event where
  action_type : Str
  details : EventDetails
  allowed : Bool

/-- Observable outcome of the spawned child process. -/
structure ProcSpec where
  exit_code : Int
  out : Str
  err : Str
  openFiles : List (Str × Str)

/-- Result of one supervised run: exit code, emitted events in order,
whether a child process was spawned, and the captured stdout. -/
structure RunResult where
  exitCode : Int
  events : List Event
  spawned : Bool
  output : Str

/-- Monitoring step for one open file handle: the policy check of
`check_policy('file_read', path)` plus the `file_access` log record. -/
def fileAccessStep (home : Str) (st : List Event × Nat) (f : Str × Str) :
    List Event × Nat :=
  let blocked := (should_block home ("file_read".toList) f.1).1
  (st.1 ++ [⟨"file_access".toList, .fileAccessD f.1 f.2, !blocked⟩],
   st.2 + (if blocked then 1 else 0))

/-- Model of `AgentMonitor.run`: logs a `start` event, screens the
command, and either logs `blocked` plus `complete` and returns exit code
1 without spawning, or spawns the process, logs one `file_access` event
per reported open file, waits, and logs `complete` with the child's exit
code and the action counters.  The source unpacks the result of
`check_command` as `should_block, reason, patterns` although its first
component is the `allowed` flag, so the blocked branch is the one taken
when the flag is `true` — that is, for commands that match **no**
dangerous pattern; the model reproduces this faithfully. -/
def AgentMonitor.run (home cwd user : Str) (command : Str) (proc : ProcSpec) :
    RunResult :=
  let ev0 : List Event := [⟨"start".toList, .startD command cwd user, true⟩]
  let screened := check_command command
  if screened.1 = true then
    let ev1 := ev0 ++ [⟨"blocked".toList, .blockedD command screened.2.1 screened.2.2, false⟩]
    let ev2 := ev1 ++ [⟨"complete".toList, .completeD 1 ev1.length 1, true⟩]
    ⟨1, ev2, false, []⟩
  else
    let st := proc.openFiles.foldl (fileAccessStep home) (ev0, 0)
    let ev2 := st.1 ++ [⟨"complete".toList, .completeD proc.exit_code st.1.length st.2, true⟩]
    ⟨proc.exit_code, ev2, true, proc.out⟩

section C2

/-- Helper: the monitoring pass only ever appends `file_access` events
to the event list it is given. -/
theorem fileAccessStep_fold_mem (home : Str) (files : List (Str × Str)) :
    ∀ (evs : List Event) (n : Nat) (e : Event),
      e ∈ (files.foldl (fileAccessStep home) (evs, n)).1 →
      e ∈ evs ∨ e.action_type = "file_access".toList := by
  induction files with
  | nil =>
      intro evs n e he
      exact Or.inl he
  | cons f rest ih =>
      intro evs n e he
      rw [List.foldl_cons] at he
      rcases ih _ _ e he with hm | hfa
      · rcases List.mem_append.mp hm with h1 | h2
        · exact Or.inl h1
        · rcases List.mem_cons.mp h2 with h3 | h4
          · exact Or.inr (by rw [h3])
          · exact absurd h4 (List.not_mem_nil _)
      · exact Or.inr hfa

/-- C2 (code bug): the source binds the `allowed` flag of
`check_command` to its `should_block` variable, so the dangerous command
`DROP TABLE users;` is *not* screened out: the run spawns the child,
propagates its exit code and output, and logs no `blocked` event at all
— where the claim (and the specification) require exit code 1, one
`blocked` event and no spawned process. -/
theorem monitor_drop_table_bug (home cwd user : Str) (proc : ProcSpec) :
    (AgentMonitor.run home cwd user ("DROP TABLE users;".toList) proc).spawned = true
    ∧ (AgentMonitor.run home cwd user ("DROP TABLE users;".toList) proc).exitCode =
        proc.exit_code
    ∧ (AgentMonitor.run home cwd user ("DROP TABLE users;".toList) proc).output =
        proc.out
    ∧ ∀ e ∈ (AgentMonitor.run home cwd user ("DROP TABLE users;".toList) proc).events,
        e.action_type ≠ "blocked".toList := by
  have hscreen : ¬ ((check_command ("DROP TABLE users;".toList)).1 = true) := by decide
  unfold AgentMonitor.run
  rw [if_neg hscreen]
  refine ⟨rfl, rfl, rfl, ?_⟩
  intro e he
  rcases List.mem_append.mp he with hst | hcomp
  · rcases fileAccessStep_fold_mem home proc.openFiles _ 0 e hst with h0 | hfa
    · rcases List.mem_cons.mp h0 with h1 | h2
      · rw [h1]
        exact (show ("start".toList : Str) ≠ "blocked".toList by decide)
      · exact absurd h2 (List.not_mem_nil _)
    · rw [hfa]
      decide
  · rcases List.mem_cons.mp hcomp with h1 | h2
    · rw [h1]
      exact (show ("complete".toList : Str) ≠ "blocked".toList by decide)
    · exact absurd h2 (List.not_mem_nil _)

end C2

section C3

/-- C3 (code bug): because the source treats the `allowed` flag of
`check_command` as `should_block`, the harmless command `echo hello`
takes the blocked branch: the run returns exit code 1 without spawning
any process, and logs a `blocked` event (with reason `None` and no
matched patterns) followed by a `complete` event with exit code 1 —
where the claim (and the specification) require a spawned child,
captured stdout and exit code 0. -/
theorem monitor_echo_hello_bug (home cwd user : Str) (proc : ProcSpec) :
    (AgentMonitor.run home cwd user ("echo hello".toList) proc).spawned = false
    ∧ (AgentMonitor.run home cwd user ("echo hello".toList) proc).exitCode = 1
    ∧ (AgentMonitor.run home cwd user ("echo hello".toList) proc).output = []
    ∧ (AgentMonitor.run home cwd user ("echo hello".toList) proc).events =
        [⟨"start".toList, .startD ("echo hello".toList) cwd user, true⟩,
         ⟨"blocked".toList, .blockedD ("echo hello".toList) none [], false⟩,
         ⟨"complete".toList, .completeD 1 2 1, true⟩] :=
  ⟨rfl, rfl, rfl, rfl⟩

end C3

/-! ### File-system model and `FileRollback` (blocker.py)

The file system visible to the rollback subsystem is an association list
from paths to file contents; `shutil.copy2` becomes reading one entry
and writing another, `unlink` removes an entry.  The model idealises I/O:
the only failure modelled is a recorded backup file that is missing at
restore time, which is exactly the failure mode the specification's
partial-rollback property describes. -/

/-- Association-list file system: path to content. -/
abbrev FS := List (Str × Str)

/-- Content of a file, `none` when the path does not exist. -/
def fsGet (fs : FS) (p : Str) : Option Str := fs.lookup p

/-- Existence test, modelling `Path.exists()`. -/
def fsExists (fs : FS) (p : Str) : Bool := (fsGet fs p).isSome

/-- Write (create or overwrite) a file. -/
def fsSet (fs : FS) (p c : Str) : FS := (p, c) :: fs.eraseP (fun e => e.1 == p)

/-- Delete a file, modelling `Path.unlink()`. -/
def fsDel (fs : FS) (p : Str) : FS := fs.eraseP (fun e => e.1 == p)

/-- Final path component, modelling `Path(p).name`. -/
def pathBasename (p : Str) : Str :=
  p.foldl (fun acc c => if c = '/' then [] else acc ++ [c]) []

/-- Index of the rightmost dot of a name, if any. -/
def rfindDot (name : Str) : Option Nat :=
  ((List.range name.length).filter (fun i => name.getD i ' ' = '.')).getLast?

/-- Model of `Path(name).stem`: the name without its extension, where an
extension requires an interior dot (a leading or trailing dot does not
count, as in pathlib). -/
def pathStem (name : Str) : Str :=
  match rfindDot name with
  | some i => if 0 < i ∧ i + 1 < name.length then name.take i else name
  | none => name

/-- Model of `Path(name).suffix`. -/
def pathSuffix (name : Str) : Str :=
  match rfindDot name with
  | some i => if 0 < i ∧ i + 1 < name.length then name.drop i else []
  | none => []

/-- Path join `dir / name` with a single separator. -/
def joinPath (d name : Str) : Str := d ++ '/' :: name

/-- Decimal rendering of a counter, for backup-name disambiguation. -/
def natToStr (n : Nat) : Str := (toString n).toList

/-- Kind of a recorded file operation. -/
inductive OpType where
  | create : OpType
  | modify : OpType

/-- One recorded operation of `FileRollback.operations`. -/
structure FileOp where
  type : OpType
  path : Str
  backup : Option Str

/-- State of a `FileRollback` session: the backup directory and the
append-only list of recorded operations. -/
structure FileRollback where
  backup_dir : Str
  operations : List FileOp

/-- Collision-avoidance loop of `backup_file`: starting from
`dir/name`, try `dir/stem_k suffix` for k = 1, 2, ... until a free path
is found.  The Python `while` loop is modelled with fuel; one unit more
than the number of files always suffices because the candidate names are
pairwise distinct. -/
def findBackupPathAux (fs : FS) (dir stem suf : Str) :
    Nat → Str → Nat → Str
  | 0, bp, _ => bp
  | fuel + 1, bp, k =>
      if fsExists fs bp then
        findBackupPathAux fs dir stem suf fuel
          (joinPath dir (stem ++ '_' :: natToStr k ++ suf)) (k + 1)
      else bp

/-- Backup path chosen by `backup_file` for a source file. -/
def findBackupPath (fs : FS) (dir name stem suf : Str) : Str :=
  findBackupPathAux fs dir stem suf (fs.length + 1) (joinPath dir name) 1

/-- Model of `FileRollback.backup_file`: a missing source records a
`create` operation with no backup; an existing source is copied to a
fresh path in the backup directory and a `modify` operation referencing
that exact path is recorded. -/
def backup_file (fs : FS) (rb : FileRollback) (file_path : Str) :
    FS × FileRollback × Bool :=
  match fsGet fs file_path with
  | none =>
      (fs, { rb with operations := rb.operations ++ [⟨.create, file_path, none⟩] }, true)
  | some content =>
      let name := pathBasename file_path
      let bp := findBackupPath fs rb.backup_dir name (pathStem name) (pathSuffix name)
      (fsSet fs bp content,
       { rb with operations := rb.operations ++ [⟨.modify, file_path, some bp⟩] }, true)

/-- Error string recorded when restoring one operation fails. -/
def rollbackErr (path bp : Str) : Str :=
  "Failed to rollback ".toList ++ path ++
    ": No such file or directory: ".toList ++ bp

/-- Restoration of a single operation, threading the file system, the
restored count, and the error list: rolling back a `create` deletes the
file when it still exists; rolling back a `modify` copies the recorded
backup over the live path, and a missing backup appends one error string
(naming the operation's path) without aborting the remaining work. -/
def rollbackStep (st : FS × Nat × List Str) (op : FileOp) : FS × Nat × List Str :=
  match op.type with
  | .create =>
      if fsExists st.1 op.path then (fsDel st.1 op.path, st.2.1 + 1, st.2.2)
      else st
  | .modify =>
      match op.backup with
      | none => st
      | some bp =>
          match fsGet st.1 bp with
          | some content => (fsSet st.1 op.path content, st.2.1 + 1, st.2.2)
          | none => (st.1, st.2.1, st.2.2 ++ [rollbackErr op.path bp])

/-- Python slice `operations[-steps:]` for a natural `steps`: the whole
list when `steps` is zero (since `-0` is `0`) or at least the length,
otherwise the last `steps` elements. -/
def sliceLast (l : List FileOp) (steps : Nat) : List FileOp :=
  if steps = 0 then l else l.drop (l.length - steps)

/-- Model of `FileRollback.rollback`: selects the last `steps` recorded
operations (all of them when `steps` is `none`) and restores them in
reverse chronological order, returning the new file system, the number
of operations restored, and the per-operation error strings. -/
def FileRollback.rollback (fs : FS) (rb : FileRollback) (steps : Option Nat) :
    FS × Nat × List Str :=
  let n := steps.getD rb.operations.length
  ((sliceLast rb.operations n).reverse).foldl rollbackStep (fs, 0, [])

section FSLemmas

/-- Helper: reading back a just-written file yields the written content. -/
theorem fsGet_fsSet_same (fs : FS) (p c : Str) : fsGet (fsSet fs p c) p = some c := by
  unfold fsGet fsSet
  rw [List.lookup_cons, beq_self_eq_true]

/-- Helper: erasing entries of another key does not change a lookup. -/
theorem lookup_eraseP_key_ne (p q : Str) (h : q ≠ p) (fs : FS) :
    List.lookup q (fs.eraseP (fun e => e.1 == p)) = List.lookup q fs := by
  induction fs with
  | nil => rfl
  | cons kv rest ih =>
      obtain ⟨k, v⟩ := kv
      by_cases hk : (k == p) = true
      · rw [List.eraseP_cons_of_pos (by simpa using hk)]
        have hqk : (q == k) = false := by
          have : k = p := by simpa using hk
          subst this
          exact beq_false_of_ne h
        rw [List.lookup_cons, hqk]
      · rw [List.eraseP_cons_of_neg (by simpa using hk)]
        rw [List.lookup_cons, List.lookup_cons]
        cases q == k
        · exact ih
        · rfl

/-- Helper: writing one path does not change the content of another. -/
theorem fsGet_fsSet_ne (fs : FS) (p q c : Str) (h : q ≠ p) :
    fsGet (fsSet fs p c) q = fsGet fs q := by
  unfold fsGet fsSet
  rw [List.lookup_cons, beq_false_of_ne h]
  exact lookup_eraseP_key_ne p q h fs

/-- Helper: erasing entries preserves the absence of a path. -/
theorem lookup_eraseP_none (p : Str) (P : Str × Str → Bool) (fs : FS)
    (h : List.lookup p fs = none) : List.lookup p (fs.eraseP P) = none := by
  induction fs with
  | nil => rfl
  | cons kv rest ih =>
      obtain ⟨k, v⟩ := kv
      rw [List.lookup_cons] at h
      rcases hpk : (p == k) with _ | _
      · rw [hpk] at h
        by_cases hP : P (k, v) = true
        · rw [List.eraseP_cons_of_pos (by simpa using hP)]
          exact h
        · rw [List.eraseP_cons_of_neg (by simpa using hP), List.lookup_cons, hpk]
          exact ih h
      · rw [hpk] at h
        exact absurd h (by simp)

end FSLemmas




section C5

/-- Scenario of the rollback-ordering property: initial file system with
one file `B` of content `C0`. -/
def c5Fs0 (C0 : Str) : FS := [("B".toList, C0)]

/-- Scenario: fresh rollback session with backup directory `/bk`. -/
def c5Rb0 : FileRollback := ⟨"/bk".toList, []⟩

/-- Scenario: backup before creating `A` (records a create operation). -/
def c5S1 (C0 : Str) : FS × FileRollback × Bool :=
  backup_file (c5Fs0 C0) c5Rb0 ("A".toList)

/-- Scenario: the agent creates `A`. -/
def c5Fs1 (C0 a1 : Str) : FS := fsSet (c5S1 C0).1 ("A".toList) a1

/-- Scenario: backup before the first modification of `B`. -/
def c5S2 (C0 a1 : Str) : FS × FileRollback × Bool :=
  backup_file (c5Fs1 C0 a1) (c5S1 C0).2.1 ("B".toList)

/-- Scenario: the agent rewrites `B` to `C1`. -/
def c5Fs3 (C0 a1 C1 : Str) : FS := fsSet (c5S2 C0 a1).1 ("B".toList) C1

/-- Scenario: backup before the second modification of `B`. -/
def c5S3 (C0 a1 C1 : Str) : FS × FileRollback × Bool :=
  backup_file (c5Fs3 C0 a1 C1) (c5S2 C0 a1).2.1 ("B".toList)

/-- Scenario: the agent rewrites `B` to `C2`. -/
def c5Fs5 (C0 a1 C1 C2 : Str) : FS := fsSet (c5S3 C0 a1 C1).1 ("B".toList) C2

/-- Scenario: the session then rolls back two operations. -/
def c5Result (C0 a1 C1 C2 : Str) : FS × Nat × List Str :=
  FileRollback.rollback (c5Fs5 C0 a1 C1 C2) (c5S3 C0 a1 C1).2.1 (some 2)

/-- C5 counterexample: with B's contents C0 = "C0", C1 = "C1", C2 = "C2",
after `rollback(2)` the file B holds its original pre-session content
"C0", not "C1" (the state after the first modification) as the claim
asserts. -/
theorem rollback_two_modifications_counterexample :
    fsGet (c5Result ("C0".toList) ("a1".toList) ("C1".toList) ("C2".toList)).1
        ("B".toList) = some ("C0".toList)
    ∧ ¬ (fsGet (c5Result ("C0".toList) ("a1".toList) ("C1".toList) ("C2".toList)).1
        ("B".toList) = some ("C1".toList)) := by
  constructor
  · decide
  · decide

set_option maxHeartbeats 2000000 in
/-- C5 (amended): for operations [create A, modify B, modify B] on the
same path B, `rollback(2)` undoes both modifications, most recent first,
so B ends at its original pre-session content C0 (the backup taken before
the first modification), with both operations counted and no errors. -/
theorem rollback_two_modifications_amended (C0 a1 C1 C2 : Str) :
    fsGet (c5Result C0 a1 C1 C2).1 ("B".toList) = some C0
    ∧ (c5Result C0 a1 C1 C2).2.1 = 2
    ∧ (c5Result C0 a1 C1 C2).2.2 = [] := by
  refine ⟨?_, ?_, ?_⟩ <;> rfl

end C5

section C6

/-- Helper: the collision loop returns its first candidate when that
path is free. -/
theorem findBackupPathAux_stop (fs : FS) (dir stem suf : Str) (fuel : Nat)
    (bp : Str) (k : Nat) (h : fsExists fs bp = false) :
    findBackupPathAux fs dir stem suf (fuel + 1) bp k = bp := by
  simp only [findBackupPathAux]
  rw [h]
  simp

/-- Helper: the chosen backup path is `dir/name` when that path is free. -/
theorem findBackupPath_free (fs : FS) (dir name stem suf : Str)
    (h : fsExists fs (joinPath dir name) = false) :
    findBackupPath fs dir name stem suf = joinPath dir name := by
  unfold findBackupPath
  exact findBackupPathAux_stop fs dir stem suf fs.length (joinPath dir name) 1 h

/-- Helper: shape of `backup_file` on an existing source whose chosen
backup path is free. -/
theorem backup_file_existing (fs : FS) (dir F C : Str)
    (hC : fsGet fs F = some C)
    (hfree : fsExists fs (joinPath dir (pathBasename F)) = false) :
    backup_file fs ⟨dir, []⟩ F =
      (fsSet fs (joinPath dir (pathBasename F)) C,
       ⟨dir, [⟨.modify, F, some (joinPath dir (pathBasename F))⟩]⟩, true) := by
  unfold backup_file
  rw [hC]
  simp only [findBackupPath_free fs dir _ _ _ hfree]
  rfl

/-- Helper: shape of `backup_file` on a missing source. -/
theorem backup_file_missing (fs : FS) (dir F : Str) (hC : fsGet fs F = none) :
    backup_file fs ⟨dir, []⟩ F = (fs, ⟨dir, [⟨.create, F, none⟩]⟩, true) := by
  unfold backup_file
  rw [hC]
  rfl

/-- Helper: rollback of a one-operation session is a single restore step. -/
theorem rollback_one_op (fs2 : FS) (dir : Str) (op : FileOp) :
    FileRollback.rollback fs2 ⟨dir, [op]⟩ (some 1) =
      rollbackStep (fs2, 0, []) op := by
  unfold FileRollback.rollback
  simp [sliceLast]

/-- C6: round-trip — backing up an existing file F with content C, then
overwriting F with new content, then `rollback(1)`, restores F to
exactly C; and rolling back a recorded `create` operation deletes the
file that now exists at that path. -/
theorem backup_rollback_roundtrip :
    (∀ (fs : FS) (dir F C Cp : Str),
      fsGet fs F = some C →
      fsExists fs (joinPath dir (pathBasename F)) = false →
      joinPath dir (pathBasename F) ≠ F →
      fsGet (FileRollback.rollback
          (fsSet (backup_file fs ⟨dir, []⟩ F).1 F Cp)
          (backup_file fs ⟨dir, []⟩ F).2.1 (some 1)).1 F = some C)
    ∧ (∀ (fs : FS) (dir F Cp : Str),
      fsGet fs F = none →
      fsGet (FileRollback.rollback
          (fsSet (backup_file fs ⟨dir, []⟩ F).1 F Cp)
          (backup_file fs ⟨dir, []⟩ F).2.1 (some 1)).1 F = none) := by
  constructor
  · intro fs dir F C Cp hC hfree hne
    rw [backup_file_existing fs dir F C hC hfree]
    rw [rollback_one_op]
    have hbp : fsGet (fsSet (fsSet fs (joinPath dir (pathBasename F)) C) F Cp)
        (joinPath dir (pathBasename F)) = some C := by
      rw [fsGet_fsSet_ne _ _ _ _ hne]
      exact fsGet_fsSet_same _ _ _
    show fsGet ((match fsGet _ (joinPath dir (pathBasename F)) with
      | some content => (fsSet _ F content, 0 + 1, ([] : List Str))
      | none => (_, 0, [rollbackErr F (joinPath dir (pathBasename F))])) : FS × Nat × List Str).1 F = some C
    rw [hbp]
    exact fsGet_fsSet_same _ _ _
  · intro fs dir F Cp hC
    rw [backup_file_missing fs dir F hC]
    rw [rollback_one_op]
    have hex : fsExists (fsSet fs F Cp) F = true := by
      unfold fsExists
      rw [fsGet_fsSet_same]
      rfl
    show fsGet (if fsExists (fsSet fs F Cp) F then
        (fsDel (fsSet fs F Cp) F, 0 + 1, ([] : List Str))
      else ((fsSet fs F Cp), 0, [])).1 F = none
    rw [hex]
    simp only [if_true]
    show List.lookup F (List.eraseP (fun e => e.1 == F)
      ((F, Cp) :: fs.eraseP (fun e => e.1 == F))) = none
    rw [List.eraseP_cons_of_pos (by simp)]
    exact lookup_eraseP_none F _ fs hC

/-- Concrete instance of C6: a file `f` with content `C` overwritten by
`D` is restored to `C` by `rollback(1)`, and a created file `g` is
removed again. -/
theorem backup_rollback_roundtrip_witness :
    fsGet (FileRollback.rollback
        (fsSet (backup_file [(("f".toList : Str), ("C".toList : Str))]
            ⟨"/bk".toList, []⟩ ("f".toList)).1 ("f".toList) ("D".toList))
        (backup_file [(("f".toList : Str), ("C".toList : Str))]
            ⟨"/bk".toList, []⟩ ("f".toList)).2.1 (some 1)).1 ("f".toList)
      = some ("C".toList)
    ∧ fsGet (FileRollback.rollback
        (fsSet (backup_file ([] : FS) ⟨"/bk".toList, []⟩ ("g".toList)).1
          ("g".toList) ("D".toList))
        (backup_file ([] : FS) ⟨"/bk".toList, []⟩ ("g".toList)).2.1 (some 1)).1
        ("g".toList) = none :=
  ⟨backup_rollback_roundtrip.1 [(("f".toList : Str), ("C".toList : Str))]
      ("/bk".toList) ("f".toList) ("C".toList) ("D".toList) rfl (by decide) (by decide),
   backup_rollback_roundtrip.2 ([] : FS) ("/bk".toList) ("g".toList) ("D".toList) rfl⟩

end C6

section C7

/-- Bool test: the operation is a modify. -/
def opIsModify (op : FileOp) : Bool :=
  match op.type with
  | .modify => true
  | .create => false

/-- Bool test: the recorded backup of an operation exists in `fs`. -/
def opBackupLive (fs : FS) (op : FileOp) : Bool :=
  match op.backup with
  | some bp => fsExists fs bp
  | none => false

/-- Bool test: the recorded backup of `op` (if any) differs from the
target path of `op'`. -/
def opSep (op op' : FileOp) : Bool :=
  match op.backup with
  | some bp => bp != op'.path
  | none => true

/-- Helper: existence gives a content. -/
theorem exists_of_fsExists (fs : FS) (p : Str) (h : fsExists fs p = true) :
    ∃ c, fsGet fs p = some c := by
  unfold fsExists at h
  cases hc : fsGet fs p with
  | none => rw [hc] at h; exact absurd h (by simp)
  | some c => exact ⟨c, rfl⟩

/-- Helper: a healthy modify operation restores its backup and counts. -/
theorem rollbackStep_modify_live (fs : FS) (n : Nat) (errs : List Str)
    (op : FileOp) (bp c : Str) (hmod : opIsModify op = true)
    (hbp : op.backup = some bp) (hc : fsGet fs bp = some c) :
    rollbackStep (fs, n, errs) op = (fsSet fs op.path c, n + 1, errs) := by
  obtain ⟨t, p, b⟩ := op
  cases t with
  | create => exact absurd hmod (by simp [opIsModify])
  | modify =>
      simp only at hbp
      subst hbp
      unfold rollbackStep
      simp only
      rw [hc]

/-- Helper: a modify operation with a missing backup reports one error
naming its path and restores nothing. -/
theorem rollbackStep_modify_missing (fs : FS) (n : Nat) (errs : List Str)
    (op : FileOp) (bp : Str) (hmod : opIsModify op = true)
    (hbp : op.backup = some bp) (hc : fsGet fs bp = none) :
    rollbackStep (fs, n, errs) op = (fs, n, errs ++ [rollbackErr op.path bp]) := by
  obtain ⟨t, p, b⟩ := op
  cases t with
  | create => exact absurd hmod (by simp [opIsModify])
  | modify =>
      simp only at hbp
      subst hbp
      unfold rollbackStep
      simp only
      rw [hc]

/-- Helper invariant: a run of healthy modify operations — each a modify
whose backup lies outside the set of target paths and exists in the
original file system — restores every one of them, leaves the error list
unchanged, and preserves the contents of every non-target path. -/
theorem foldl_rollbackStep_good (fs0 : FS) (tgts : List Str) (l : List FileOp) :
    ∀ (fs : FS) (n : Nat) (errs : List Str),
      (∀ q : Str, q ∉ tgts → fsGet fs q = fsGet fs0 q) →
      (∀ op ∈ l, opIsModify op = true ∧
        (∃ bp, op.backup = some bp ∧ bp ∉ tgts ∧ fsExists fs0 bp = true) ∧
        op.path ∈ tgts) →
      ∃ fs2, l.foldl rollbackStep (fs, n, errs) = (fs2, n + l.length, errs) ∧
        (∀ q : Str, q ∉ tgts → fsGet fs2 q = fsGet fs0 q) := by
  induction l with
  | nil =>
      intro fs n errs hpres _
      exact ⟨fs, by simp, hpres⟩
  | cons op rest ih =>
      intro fs n errs hpres hops
      obtain ⟨hmod, ⟨bp, hbp, hbpn, hbplive⟩, hpath⟩ :=
        hops op (List.mem_cons_self _ _)
      obtain ⟨c, hc⟩ := exists_of_fsExists fs0 bp hbplive
      have hget : fsGet fs bp = some c := (hpres bp hbpn).trans hc
      rw [List.foldl_cons, rollbackStep_modify_live fs n errs op bp c hmod hbp hget]
      have hpres2 : ∀ q : Str, q ∉ tgts → fsGet (fsSet fs op.path c) q = fsGet fs0 q := by
        intro q hq
        rw [fsGet_fsSet_ne _ _ _ _ (fun he => hq (by rw [he]; exact hpath))]
        exact hpres q hq
      obtain ⟨fs2, hf2, hp2⟩ := ih (fsSet fs op.path c) (n + 1) errs hpres2
        (fun o ho => hops o (List.mem_cons_of_mem _ ho))
      refine ⟨fs2, ?_, hp2⟩
      rw [hf2]
      have : n + 1 + rest.length = n + (op :: rest).length := by
        simp [List.length_cons]
        omega
      rw [this]

/-- Helper: the whole operations list is selected when `steps` is its
length. -/
theorem sliceLast_length (l : List FileOp) : sliceLast l l.length = l := by
  unfold sliceLast
  split_ifs with h
  · rfl
  · simp

end C7

section C7Main

/-- C7: partial rollback — for a session of N recorded modify operations
whose backups never coincide with any restored target path, when exactly
one operation's recorded backup is missing from the file system,
`rollback(N)` still restores the other N-1 operations, continues past
the failure, and returns the restored count together with exactly one
error string, which references the failing operation's path. -/
theorem rollback_partial_failure (fs : FS) (dir : Str)
    (ops1 ops2 : List FileOp) (pj bpj : Str)
    (hgood : ∀ op ∈ ops1 ++ ops2,
      opIsModify op = true ∧ opBackupLive fs op = true)
    (hsep : ∀ op ∈ ops1 ++ ⟨OpType.modify, pj, some bpj⟩ :: ops2,
      ∀ op' ∈ ops1 ++ ⟨OpType.modify, pj, some bpj⟩ :: ops2,
        opSep op op' = true)
    (hmiss : fsGet fs bpj = none) :
    (FileRollback.rollback fs
        ⟨dir, ops1 ++ ⟨OpType.modify, pj, some bpj⟩ :: ops2⟩
        (some (ops1 ++ ⟨OpType.modify, pj, some bpj⟩ :: ops2).length)).2.1
      = ops1.length + ops2.length
    ∧ (FileRollback.rollback fs
        ⟨dir, ops1 ++ ⟨OpType.modify, pj, some bpj⟩ :: ops2⟩
        (some (ops1 ++ ⟨OpType.modify, pj, some bpj⟩ :: ops2).length)).2.2
      = [rollbackErr pj bpj]
    ∧ pj <:+: rollbackErr pj bpj := by
  have hopjL : (⟨OpType.modify, pj, some bpj⟩ : FileOp) ∈
      ops1 ++ ⟨OpType.modify, pj, some bpj⟩ :: ops2 :=
    List.mem_append_right _ (List.mem_cons_self _ _)
  have hmemL : ∀ op ∈ ops1 ++ ops2,
      op ∈ ops1 ++ ⟨OpType.modify, pj, some bpj⟩ :: ops2 := by
    intro op hop
    rcases List.mem_append.mp hop with h | h
    · exact List.mem_append_left _ h
    · exact List.mem_append_right _ (List.mem_cons_of_mem _ h)
  have hbpj_notin : bpj ∉
      (ops1 ++ ⟨OpType.modify, pj, some bpj⟩ :: ops2).map FileOp.path := by
    intro hm
    obtain ⟨op', hop', hq⟩ := List.mem_map.mp hm
    have hs := hsep _ hopjL op' hop'
    unfold opSep at hs
    simp only at hs
    exact absurd hq (bne_iff_ne.mp hs).symm
  have hgood2 : ∀ op ∈ ops1 ++ ops2, opIsModify op = true ∧
      (∃ bp, op.backup = some bp ∧
        bp ∉ (ops1 ++ ⟨OpType.modify, pj, some bpj⟩ :: ops2).map FileOp.path ∧
        fsExists fs bp = true) ∧
      op.path ∈ (ops1 ++ ⟨OpType.modify, pj, some bpj⟩ :: ops2).map FileOp.path := by
    intro op hop
    obtain ⟨hmod, hlive⟩ := hgood op hop
    refine ⟨hmod, ?_, List.mem_map_of_mem _ (hmemL op hop)⟩
    unfold opBackupLive at hlive
    cases hb : op.backup with
    | none => rw [hb] at hlive; exact absurd hlive (by simp)
    | some bp =>
        rw [hb] at hlive
        refine ⟨bp, rfl, ?_, hlive⟩
        intro hm
        obtain ⟨op', hop', hq⟩ := List.mem_map.mp hm
        have hs := hsep op (hmemL op hop) op' hop'
        unfold opSep at hs
        rw [hb] at hs
        exact absurd hq (bne_iff_ne.mp hs).symm
  obtain ⟨fsA, hA, hpA⟩ := foldl_rollbackStep_good fs
    ((ops1 ++ ⟨OpType.modify, pj, some bpj⟩ :: ops2).map FileOp.path)
    ops2.reverse fs 0 [] (fun _ _ => rfl)
    (fun op ho => hgood2 op (List.mem_append_right _ (List.mem_reverse.mp ho)))
  have hmissA : fsGet fsA bpj = none := (hpA bpj hbpj_notin).trans hmiss
  obtain ⟨fsB, hB, hpB⟩ := foldl_rollbackStep_good fs
    ((ops1 ++ ⟨OpType.modify, pj, some bpj⟩ :: ops2).map FileOp.path)
    ops1.reverse fsA (0 + ops2.reverse.length) ([] ++ [rollbackErr pj bpj]) hpA
    (fun op ho => hgood2 op (List.mem_append_left _ (List.mem_reverse.mp ho)))
  have hbig : FileRollback.rollback fs
      ⟨dir, ops1 ++ ⟨OpType.modify, pj, some bpj⟩ :: ops2⟩
      (some (ops1 ++ ⟨OpType.modify, pj, some bpj⟩ :: ops2).length) =
      (fsB, 0 + ops2.reverse.length + ops1.reverse.length,
        [] ++ [rollbackErr pj bpj]) := by
    unfold FileRollback.rollback
    simp only [Option.getD_some]
    rw [sliceLast_length]
    rw [show (ops1 ++ ⟨OpType.modify, pj, some bpj⟩ :: ops2).reverse =
        (ops2.reverse ++ [(⟨OpType.modify, pj, some bpj⟩ : FileOp)]) ++ ops1.reverse from by
      rw [List.reverse_append, List.reverse_cons]]
    rw [List.foldl_append, List.foldl_append]
    rw [hA, List.foldl_cons, List.foldl_nil]
    rw [rollbackStep_modify_missing fsA _ [] ⟨OpType.modify, pj, some bpj⟩ bpj
      rfl rfl hmissA]
    exact hB
  refine ⟨?_, ?_,
    ⟨"Failed to rollback ".toList,
      ": No such file or directory: ".toList ++ bpj, by simp [rollbackErr]⟩⟩
  · rw [hbig]
    simp only [List.length_reverse]
    omega
  · rw [hbig]
    simp

/-- Concrete instance of C7: three modify operations whose middle backup
`/bk/z` is missing; the other two are restored and one error names `z`. -/
theorem rollback_partial_failure_witness :
    (FileRollback.rollback
        [(("/bk/x".toList : Str), ("cx".toList : Str)),
         ("/bk/y".toList, "cy".toList), ("x".toList, "X".toList),
         ("y".toList, "Y".toList), ("z".toList, "Z".toList)]
        ⟨"/bk".toList,
          ([⟨OpType.modify, "x".toList, some ("/bk/x".toList)⟩] : List FileOp) ++
            ⟨OpType.modify, "z".toList, some ("/bk/z".toList)⟩ ::
              [⟨OpType.modify, "y".toList, some ("/bk/y".toList)⟩]⟩
        (some (([⟨OpType.modify, "x".toList, some ("/bk/x".toList)⟩] : List FileOp) ++
            (⟨OpType.modify, "z".toList, some ("/bk/z".toList)⟩ : FileOp) ::
              [⟨OpType.modify, "y".toList, some ("/bk/y".toList)⟩]).length)).2.1
      = 2
    ∧ (FileRollback.rollback
        [(("/bk/x".toList : Str), ("cx".toList : Str)),
         ("/bk/y".toList, "cy".toList), ("x".toList, "X".toList),
         ("y".toList, "Y".toList), ("z".toList, "Z".toList)]
        ⟨"/bk".toList,
          ([⟨OpType.modify, "x".toList, some ("/bk/x".toList)⟩] : List FileOp) ++
            ⟨OpType.modify, "z".toList, some ("/bk/z".toList)⟩ ::
              [⟨OpType.modify, "y".toList, some ("/bk/y".toList)⟩]⟩
        (some (([⟨OpType.modify, "x".toList, some ("/bk/x".toList)⟩] : List FileOp) ++
            (⟨OpType.modify, "z".toList, some ("/bk/z".toList)⟩ : FileOp) ::
              [⟨OpType.modify, "y".toList, some ("/bk/y".toList)⟩]).length)).2.2
      = [rollbackErr ("z".toList) ("/bk/z".toList)]
    ∧ ("z".toList : Str) <:+: rollbackErr ("z".toList) ("/bk/z".toList) := by
  have h := rollback_partial_failure
    [(("/bk/x".toList : Str), ("cx".toList : Str)),
     ("/bk/y".toList, "cy".toList), ("x".toList, "X".toList),
     ("y".toList, "Y".toList), ("z".toList, "Z".toList)]
    ("/bk".toList)
    [⟨OpType.modify, "x".toList, some ("/bk/x".toList)⟩]
    [⟨OpType.modify, "y".toList, some ("/bk/y".toList)⟩]
    ("z".toList) ("/bk/z".toList)
    (by decide) (by decide) rfl
  exact h

end C7Main

/-! ### `DockerSandbox.get_stats` (docker_sandbox.py)

Docker's resource counters are integers; the Python float arithmetic of
`get_stats` is modelled exactly over the rationals, with `round(x, 2)`
modelled as round-half-to-even at two decimal places (Python's `round`).
A sandbox without a container, or a failing per-call stats query (the
`except` path), yields the empty stats dict, modelled as `none`. -/

/-- One stats snapshot as returned by the container runtime: current and
immediately-prior CPU counters, and memory usage/limit. -/
structure RawStats where
  cpu_total : ℤ
  precpu_total : ℤ
  system_cpu : ℤ
  presystem_cpu : ℤ
  mem_usage : ℤ
  mem_limit : ℤ

/-- The stats dict built by `get_stats` on success. -/
structure ContainerStats where
  cpu_percent : ℚ
  memory_usage_mb : ℚ
  memory_percent : ℚ
  container_id : Str

/-- Round-half-to-even to an integer, the tie-breaking rule of Python's
`round`. -/
def roundHalfEven (q : ℚ) : ℤ :=
  if q - ⌊q⌋ < 1/2 then ⌊q⌋
  else if 1/2 < q - ⌊q⌋ then ⌊q⌋ + 1
  else if Even ⌊q⌋ then ⌊q⌋ else ⌊q⌋ + 1

/-- Model of Python `round(q, 2)`. -/
def round2 (q : ℚ) : ℚ := (roundHalfEven (q * 100) : ℚ) / 100

/-- Model of `DockerSandbox.get_stats`: without a container, or when the
underlying stats call fails, the empty stats object; otherwise the CPU
percentage is the ratio of the container-CPU delta to the system-CPU
delta times 100, taken as 0 when the denominator is not positive, and
the memory fields are the usage in MiB and the usage/limit percentage
(0 when the limit is not positive), all rounded to two decimals. -/
def get_stats (hasContainer : Bool) (cid : Str) (fetch : Option RawStats) :
    Option ContainerStats :=
  if hasContainer = false then none
  else
    match fetch with
    | none => none
    | some s =>
        let cpu_delta : ℚ := ((s.cpu_total - s.precpu_total : ℤ) : ℚ)
        let system_delta : ℚ := ((s.system_cpu - s.presystem_cpu : ℤ) : ℚ)
        let cpu_percent : ℚ :=
          if 0 < system_delta then cpu_delta / system_delta * 100 else 0
        let memory_percent : ℚ :=
          if 0 < ((s.mem_limit : ℚ)) then (s.mem_usage : ℚ) / (s.mem_limit : ℚ) * 100
          else 0
        some ⟨round2 cpu_percent,
              round2 ((s.mem_usage : ℚ) / (1024 * 1024)),
              round2 memory_percent, cid⟩

section C9

/-- Helper: rounding zero gives zero. -/
theorem round2_zero : round2 0 = 0 := by
  unfold round2 roundHalfEven
  norm_num

/-- C9: the CPU percentage of `get_stats` is the delta of container CPU
time over the delta of system CPU time, times 100 (rounded to two
decimals), clamped to 0 when the denominator is 0; and a failing stats
query returns the empty stats object instead of raising. -/
theorem get_stats_cpu_formula (cid : Str) (s : RawStats) :
    ((get_stats true cid (some s)).map (fun st => st.cpu_percent) =
      some (if 0 < ((s.system_cpu - s.presystem_cpu : ℤ) : ℚ) then
        round2 (((s.cpu_total - s.precpu_total : ℤ) : ℚ) /
          ((s.system_cpu - s.presystem_cpu : ℤ) : ℚ) * 100)
      else 0))
    ∧ (s.system_cpu - s.presystem_cpu = 0 →
      (get_stats true cid (some s)).map (fun st => st.cpu_percent) = some 0)
    ∧ get_stats true cid none = none := by
  refine ⟨?_, ?_, rfl⟩
  · show some (round2 (if 0 < ((s.system_cpu - s.presystem_cpu : ℤ) : ℚ) then
        ((s.cpu_total - s.precpu_total : ℤ) : ℚ) /
          ((s.system_cpu - s.presystem_cpu : ℤ) : ℚ) * 100 else 0)) = _
    by_cases h : 0 < ((s.system_cpu - s.presystem_cpu : ℤ) : ℚ)
    · rw [if_pos h, if_pos h]
    · rw [if_neg h, if_neg h, round2_zero]
  · intro h
    have hz : ((s.system_cpu - s.presystem_cpu : ℤ) : ℚ) = 0 := by
      rw [h]
      norm_num
    show some (round2 (if 0 < ((s.system_cpu - s.presystem_cpu : ℤ) : ℚ) then
        ((s.cpu_total - s.precpu_total : ℤ) : ℚ) /
          ((s.system_cpu - s.presystem_cpu : ℤ) : ℚ) * 100 else 0)) = some 0
    rw [hz]
    norm_num [round2_zero]

/-- Concrete instance of C9: container CPU delta 50 over system delta
200 gives 25 percent; a zero system delta gives 0; a failed query gives
the empty object. -/
theorem get_stats_cpu_formula_witness :
    ((get_stats true [] (some ⟨150, 100, 300, 100, 0, 0⟩)).map
        (fun st => st.cpu_percent) = some (round2 (50 / 200 * 100)))
    ∧ ((get_stats true [] (some ⟨150, 100, 100, 100, 0, 0⟩)).map
        (fun st => st.cpu_percent) = some 0)
    ∧ get_stats true [] none = none := by
  refine ⟨?_, ?_, ?_⟩
  · have h := (get_stats_cpu_formula [] ⟨150, 100, 300, 100, 0, 0⟩).1
    rw [h]
    norm_num
  · exact (get_stats_cpu_formula [] ⟨150, 100, 100, 100, 0, 0⟩).2.1 (by norm_num)
  · exact (get_stats_cpu_formula [] ⟨150, 100, 100, 100, 0, 0⟩).2.2

end C9

end SudoDog
